import Mathlib

/-!
Verification development for the TvConfigs auto-validation engine: a shallow
embedding of the path resolution, comment stripping, flag search, XML block
extraction fallback, failure aggregation and country/standard comparison logic
found in check_dvbs_satellite_flag.py, check_ginga_flag.py,
tv_multi_standard_validation.py and pid1_config_check.py, together with
theorems settling the specification claims.

File contents are abstracted as `Option (List String)` (missing vs lines) or
plain `String`; the XML parser `xml.etree.ElementTree.fromstring` is abstracted
as a `String → Option Xml` argument.  All other string processing is embedded
directly from the Python source.
-/

/-- ASCII whitespace test matching the characters Python `str.strip` removes
in the inputs considered here. -/
def isWS (c : Char) : Bool := c = ' ' || c = '\t' || c = '\n' || c = '\r'

/-- Strip leading and trailing whitespace from a character list (Python `str.strip()`). -/
def trimWS (l : List Char) : List Char :=
  ((l.dropWhile isWS).reverse.dropWhile isWS).reverse

/-- Python `s.strip()` on a `String`. -/
def sTrim (s : String) : String := ⟨trimWS s.data⟩

/-- Python `s.upper()` (ASCII). -/
def sUpper (s : String) : String := ⟨s.data.map Char.toUpper⟩

/-- Python `s.startswith(pre)`. -/
def sStarts (s pre : String) : Bool := pre.data.isPrefixOf s.data

/-- Python `s.endswith(suf)`. -/
def sEnds (s suf : String) : Bool := suf.data.isSuffixOf s.data

/-- Substring containment on character lists (Python `pat in s`). -/
def listContains (pat : List Char) : List Char → Bool
  | [] => pat.isEmpty
  | c :: t => pat.isPrefixOf (c :: t) || listContains pat t

/-- Python `pat in s` on strings. -/
def containsStr (s pat : String) : Bool := listContains pat.data s.data

/-- Python `line.replace(" ", "")`. -/
def removeSpaces (s : String) : String := ⟨s.data.filter (· ≠ ' ')⟩

/-- `_strip_comment` (check_dvbs_satellite_flag.py:37-40, check_ginga_flag.py:37-40):
truncate at the first `#`, then at the first `;`, then strip whitespace. -/
def stripComment (s : String) : String :=
  ⟨trimWS ((s.data.takeWhile (· ≠ '#')).takeWhile (· ≠ ';'))⟩

/-- Python `str.split(sep)` for a single separator character, on char lists. -/
def splitChar (sep : Char) : List Char → List (List Char)
  | [] => [[]]
  | c :: t =>
    if c = sep then [] :: splitChar sep t
    else
      match splitChar sep t with
      | [] => [[c]]
      | h :: r => (c :: h) :: r

/-- Join components with `/` (Python `"/".join`). -/
def joinSlash (l : List (List Char)) : List Char := (l.intersperse ['/']).flatten

/-- POSIX `os.path.normpath`: collapse `.`, `..` and repeated separators,
preserving one (or exactly two) leading slashes. -/
def normpath (p : String) : String :=
  if p = "" then "." else
  let slashes : Nat :=
    if sStarts p "//" && !sStarts p "///" then 2
    else if sStarts p "/" then 1 else 0
  let comps := splitChar '/' p.data
  let newComps := comps.foldl (fun acc comp =>
    if comp = [] || comp = ['.'] then acc
    else if comp ≠ ['.', '.'] || (slashes = 0 && acc = []) ||
        (acc ≠ [] && acc.getLast? = some ['.', '.']) then acc ++ [comp]
    else acc.dropLast) []
  let res : String := ⟨List.replicate slashes '/' ++ joinSlash newComps⟩
  if res = "" then "." else res

/-- POSIX `os.path.join` for two components. -/
def pathJoin (a b : String) : String :=
  if sStarts b "/" then b
  else if a = "" || sEnds a "/" then a ++ b
  else a ++ "/" ++ b

/-- `_resolve_tvconfigs_path` (check_dvbs_satellite_flag.py:43-51,
check_ginga_flag.py:43-51). -/
def resolveTvconfigsPath (root ref : String) : String :=
  if sStarts ref "/tvconfigs/" then
    normpath (pathJoin root ⟨ref.data.drop 11⟩)
  else if sStarts ref "./" || sStarts ref "../" then
    normpath (pathJoin root ref)
  else if sStarts ref "/" then ref
  else normpath (pathJoin root ref)

/-- Strip characters of a given set from both ends (Python `str.strip(chars)`). -/
def trimSetChars (cs : List Char) (l : List Char) : List Char :=
  ((l.dropWhile (cs.contains ·)).reverse.dropWhile (cs.contains ·)).reverse

/-- The preprocessing of `_resolve_from_root`
(tv_multi_standard_validation.py:38): Python strip of whitespace, then of the
characters double quote, single quote, semicolon, closing paren and space. -/
def trimGiven (given : String) : String :=
  ⟨trimSetChars ['"', Char.ofNat 39, ';', ')', ' '] (trimWS given.data)⟩

/-- `_resolve_from_root` (tv_multi_standard_validation.py:37-45).  `Path.resolve()`
on an absolute root with no symlinks is modelled as `normpath`; `root / x` is
`pathJoin`. -/
def resolveFromRoot (root given : String) : String :=
  let g := trimGiven given
  if g = "" then root
  else if sStarts g "/tvconfigs/" then normpath (pathJoin root ⟨g.data.drop 11⟩)
  else if sStarts g "/" then normpath (pathJoin root ⟨g.data.dropWhile (· = '/')⟩)
  else normpath (pathJoin root g)

/-- The four ordered resolution rules exactly as the specification states them
(spec §4.1): strip `/tvconfigs/` and join; join `./`/`../` to root; return any
other absolute path unchanged; otherwise join to root. -/
def specResolve (root ref : String) : String :=
  if sStarts ref "/tvconfigs/" then
    normpath (pathJoin root ⟨ref.data.drop 11⟩)
  else if sStarts ref "./" || sStarts ref "../" then
    normpath (pathJoin root ref)
  else if sStarts ref "/" then ref
  else normpath (pathJoin root ref)

/-- Key checked by check_dvbs_satellite_flag.py (line 13). -/
def KEY_DVBS : String := "persist.vendor.rtk.tv.dtv_satellite"

/-- Key checked by check_ginga_flag.py (line 13). -/
def KEY_GINGA : String := "persist.vendor.rtk.tv.enable_ginga"

/-- One uncommented line hit of `_file_flag_state`: after comment stripping a
nonempty line whose space-free form contains `key=0`. -/
def flagLineHit (key raw : String) : Bool :=
  let line := stripComment raw
  if line = "" then false
  else containsStr (removeSpaces line) (key ++ "=0")

/-- `_file_flag_state` (check_dvbs_satellite_flag.py:54-75,
check_ginga_flag.py:54-70).  The file is `none` when missing, otherwise its
decoded lines (the utf-8/latin-1/utf-16 decode fallback is part of reading). -/
def fileFlagState (contents : Option (List String)) (key : String) :
    Bool × Option String :=
  match contents with
  | none => (false, some "MISSING")
  | some lines =>
    if lines.any (flagLineHit key) then (true, none) else (false, some "NO_FLAG")

mutual
/-- XML elements as produced by `xml.etree.ElementTree`: tag, optional text,
children (attributes are not consulted by the embedded scripts).  The child
list is the mutual type `XmlList` so that all recursion stays structural. -/
inductive Xml where
  | elem (tag : String) (text : Option String) (children : XmlList)

inductive XmlList where
  | nil
  | cons (head : Xml) (tail : XmlList)
end

def XmlList.toList : XmlList → List Xml
  | .nil => []
  | .cons c cs => c :: XmlList.toList cs

def XmlList.ofList : List Xml → XmlList
  | [] => .nil
  | c :: cs => .cons c (XmlList.ofList cs)

def Xml.tag : Xml → String
  | .elem t _ _ => t

def Xml.text : Xml → Option String
  | .elem _ tx _ => tx

def Xml.children : Xml → List Xml
  | .elem _ _ cs => cs.toList

/-- `element.findtext(tag)`: text of the first direct child with the given tag
(`""` when that child has no text), `none` when there is no such child. -/
def Xml.findtext (e : Xml) (tag : String) : Option String :=
  (e.children.find? (fun c => c.tag == tag)).map (fun c => c.text.getD "")

mutual
/-- Matches for a tag in the subtree of an element, the element itself
included, in document (preorder) order. -/
def Xml.findallSelf (tag : String) : Xml → List Xml
  | .elem t tx cs => (if t == tag then [Xml.elem t tx cs] else []) ++ XmlList.findallTag tag cs

def XmlList.findallTag (tag : String) : XmlList → List Xml
  | .nil => []
  | .cons c cs => Xml.findallSelf tag c ++ XmlList.findallTag tag cs
end

/-- `findall(".//TAG")` over a child list: all elements of the forest with the
given tag, in document order. -/
def Xml.findallDescList (tag : String) (l : List Xml) : List Xml :=
  l.foldr (fun c acc => Xml.findallSelf tag c ++ acc) []

/-- `root.findall(".//TAG")`: all proper descendants with the given tag. -/
def Xml.findallDesc (tag : String) (e : Xml) : List Xml :=
  Xml.findallDescList tag e.children

/-- Scan for the end of an `<?xml ...?>` declaration: succeed at the first `>`
only if it is immediately preceded by `?` (the regex `<\?xml[^>]*\?>`). -/
def scanDeclClose : List Char → Option (List Char)
  | [] => none
  | c :: t =>
    if c = '>' then none
    else if c = '?' then
      match t with
      | '>' :: rest => some rest
      | _ => scanDeclClose t
    else scanDeclClose t

/-- Removal of every XML declaration (the regex substitution deleting
each `<?xml ... ?>` occurrence) with an explicit fuel bound; each step
strictly consumes input, so fuel `l.length` always suffices. -/
def stripXmlDeclFuel : Nat → List Char → List Char
  | 0, l => l
  | _ + 1, [] => []
  | fuel + 1, '<' :: '?' :: 'x' :: 'm' :: 'l' :: rest =>
    match scanDeclClose rest with
    | some rem => stripXmlDeclFuel fuel rem
    | none => '<' :: stripXmlDeclFuel fuel ('?' :: 'x' :: 'm' :: 'l' :: rest)
  | fuel + 1, c :: rest => c :: stripXmlDeclFuel fuel rest

/-- The XML-declaration removal of check_dvbs_satellite_flag.py:92 and
check_ginga_flag.py:75. -/
def stripXmlDecl (s : String) : String := ⟨stripXmlDeclFuel s.data.length s.data⟩

/-- Case-insensitive literal prefix test (chars compared lowercased). -/
def isPreCI : List Char → List Char → Bool
  | [], _ => true
  | _ :: _, [] => false
  | p :: ps, c :: cs => (p.toLower == c.toLower) && isPreCI ps cs

/-- Find the first case-insensitive occurrence of `pat`, returning the text
before it, the matched characters and the text after it. -/
def splitAtPatCI (pat : List Char) : List Char → Option (List Char × List Char × List Char)
  | [] => if isPreCI pat [] then some ([], [], []) else none
  | c :: t =>
    if isPreCI pat (c :: t) then
      some ([], (c :: t).take pat.length, (c :: t).drop pat.length)
    else
      (splitAtPatCI pat t).map (fun x => (c :: x.1, x.2.1, x.2.2))

def OPEN_TAG : List Char := "<COUNTRY_TVCONFIG_MAP>".data

def CLOSE_TAG : List Char := "</COUNTRY_TVCONFIG_MAP>".data

/-- `re.finditer(r"<COUNTRY_TVCONFIG_MAP>.*?</COUNTRY_TVCONFIG_MAP>", txt,
re.DOTALL | re.IGNORECASE)`: each match runs from an opening tag to the nearest
closing tag; scanning resumes after the match.  Fuel `l.length` always
suffices since every match consumes at least one character. -/
def regexFragsFuel : Nat → List Char → List (List Char)
  | 0, _ => []
  | fuel + 1, l =>
    match splitAtPatCI OPEN_TAG l with
    | none => []
    | some (_, om, rest) =>
      match splitAtPatCI CLOSE_TAG rest with
      | none => []
      | some (mid, cm, rest2) => (om ++ mid ++ cm) :: regexFragsFuel fuel rest2

def regexFragments (l : List Char) : List (List Char) := regexFragsFuel l.length l

/-- The target tag of both country-map loaders. -/
def MAP_TAG : String := "COUNTRY_TVCONFIG_MAP"

/-- Tier-1 blocks (strict parse of the prolog-stripped text):
`list(root.findall(".//COUNTRY_TVCONFIG_MAP")) or ([root] if root.tag == "COUNTRY_TVCONFIG_MAP" else [])`,
empty when parsing raises. -/
def tier1Blocks (parse : String → Option Xml) (txtND : String) : List Xml :=
  match parse txtND with
  | none => []
  | some root =>
    let bs := Xml.findallDesc MAP_TAG root
    if bs.isEmpty then (if root.tag == MAP_TAG then [root] else []) else bs

/-- Tier-2 blocks: parse wrapped in a synthetic `<ROOT>` element. -/
def tier2Blocks (parse : String → Option Xml) (txtND : String) : List Xml :=
  match parse ("<ROOT>" ++ txtND ++ "</ROOT>") with
  | none => []
  | some root => Xml.findallDesc MAP_TAG root

/-- Tier-3 blocks: regex scan for tag-delimited fragments, each parsed
independently and kept only when it parses as the target element. -/
def tier3Blocks (parse : String → Option Xml) (txtND : String) : List Xml :=
  (regexFragments txtND.data).filterMap (fun frag =>
    match parse ⟨frag⟩ with
    | some e => if sUpper e.tag == MAP_TAG then some e else none
    | none => none)

/-- Tiers 2 and 3 of `_load_country_blocks` in check_dvbs_satellite_flag.py
(lines 106-136): `normalErr` is the pending tier-1 failure message, recorded
only if everything fails. -/
def dvbsTier23 (parse : String → Option Xml) (txtND : String)
    (normalErr : Option String) : List Xml × List String :=
  match parse ("<ROOT>" ++ txtND ++ "</ROOT>") with
  | some root =>
    let blocks := Xml.findallDesc MAP_TAG root
    if blocks.isEmpty then
      dvbsTier3 parse txtND normalErr "wrapped ok but no COUNTRY_TVCONFIG_MAP blocks"
    else (blocks, [])
  | none => dvbsTier3 parse txtND normalErr "XML wrapped parse failed"
where
  dvbsTier3 (parse : String → Option Xml) (txtND : String)
      (normalErr : Option String) (wrappedErr : String) : List Xml × List String :=
    let blocks := tier3Blocks parse txtND
    if blocks.isEmpty then
      (blocks, (match normalErr with | some e => [e] | none => []) ++
        [wrappedErr, "No COUNTRY_TVCONFIG_MAP blocks found after all parse strategies"])
    else (blocks, [])

/-- `_load_country_blocks` (check_dvbs_satellite_flag.py:90-136).  Returns the
blocks together with the notes the call appends; exception message details are
not modelled. -/
def loadCountryBlocksDvbs (parse : String → Option Xml) (txt : String) :
    List Xml × List String :=
  let txtND := stripXmlDecl txt
  match parse txtND with
  | some root =>
    let bs := Xml.findallDesc MAP_TAG root
    let blocks := if bs.isEmpty then (if root.tag == MAP_TAG then [root] else []) else bs
    if blocks.isEmpty then dvbsTier23 parse txtND none else (blocks, [])
  | none => dvbsTier23 parse txtND (some "XML normal parse failed")

/-- Tiers 2 and 3 of `_load_country_blocks` in check_ginga_flag.py (lines
85-106): notes are appended eagerly, before knowing whether a later tier
succeeds. -/
def gingaTier23 (parse : String → Option Xml) (txtND : String)
    (notes : List String) : List Xml × List String :=
  match parse ("<ROOT>" ++ txtND ++ "</ROOT>") with
  | some root =>
    let blocks := Xml.findallDesc MAP_TAG root
    if blocks.isEmpty then gingaTier3 parse txtND notes else (blocks, notes)
  | none => gingaTier3 parse txtND (notes ++ ["XML wrapped parse failed"])
where
  gingaTier3 (parse : String → Option Xml) (txtND : String)
      (notes : List String) : List Xml × List String :=
    let blocks := tier3Blocks parse txtND
    if blocks.isEmpty then (blocks, notes ++ ["No COUNTRY_TVCONFIG_MAP blocks found"])
    else (blocks, notes)

/-- `_load_country_blocks` (check_ginga_flag.py:73-106). -/
def loadCountryBlocksGinga (parse : String → Option Xml) (txt : String) :
    List Xml × List String :=
  let txtND := stripXmlDecl txt
  match parse txtND with
  | some root =>
    let bs := Xml.findallDesc MAP_TAG root
    let blocks := if bs.isEmpty then (if root.tag == MAP_TAG then [root] else []) else bs
    if blocks.isEmpty then gingaTier23 parse txtND [] else (blocks, [])
  | none => gingaTier23 parse txtND ["XML normal parse failed"]

/-- First tier with at least one block, in strict order, exactly as the
specification words it (spec §4.3). -/
def specTieredBlocks (parse : String → Option Xml) (txt : String) : List Xml :=
  let txtND := stripXmlDecl txt
  if ¬(tier1Blocks parse txtND).isEmpty then tier1Blocks parse txtND
  else if ¬(tier2Blocks parse txtND).isEmpty then tier2Blocks parse txtND
  else tier3Blocks parse txtND

/-- Lexicographic comparison of character lists by code point (Python `<=` on
`str`). -/
def lexLe : List Char → List Char → Bool
  | [], _ => true
  | _ :: _, [] => false
  | a :: as, b :: bs =>
    if a.toNat < b.toNat then true
    else if b.toNat < a.toNat then false
    else lexLe as bs

/-- Python `s1 <= s2` on strings. -/
def sLeb (a b : String) : Bool := lexLe a.data b.data

/-- Strict lexicographic order on strings. -/
def sLtb (a b : String) : Bool := sLeb a b && !(sLeb b a)

def insertStr (x : String) : List String → List String
  | [] => [x]
  | y :: ys => if sLeb x y then x :: y :: ys else y :: insertStr x ys

/-- Python `sorted` on a list of strings (insertion sort; stability is
irrelevant because it is only applied to duplicate-free lists). -/
def sortStr : List String → List String
  | [] => []
  | x :: xs => insertStr x (sortStr xs)

def dedupAux {α : Type} [DecidableEq α] (seen : List α) : List α → List α
  | [] => []
  | x :: xs => if x ∈ seen then dedupAux seen xs else x :: dedupAux (x :: seen) xs

/-- Distinct elements of a list, first occurrences kept in order (the key set
of a Python `collections.Counter` / the contents of a `set`). -/
def dedupKeep {α : Type} [DecidableEq α] (l : List α) : List α := dedupAux [] l

/-- Python `sorted(set(l))`. -/
def sortedSet (l : List String) : List String := sortStr (dedupKeep l)

/-- Occurrence count of an element in a list (the multiplicity a Python
`collections.Counter` assigns to a key). -/
def countOcc {α : Type} [DecidableEq α] (a : α) : List α → Nat
  | [] => 0
  | x :: xs => (if x = a then 1 else 0) + countOcc a xs

/-- The failure format string `f"{p} ({r})"` used by both checkers. -/
def fmtFailure (pr : String × String) : String := pr.1 ++ " (" ++ pr.2 ++ ")"

/-- The failed-summary construction (check_dvbs_satellite_flag.py:177-182,
check_ginga_flag.py:142-146): with `dedup`, a `Counter` over the formatted
failures, reported as sorted `"key xN"` lines; otherwise the raw lines. -/
def failedSummary (dedup : Bool) (fd : List (String × String)) : List String :=
  if dedup then
    let keys := fd.map fmtFailure
    (sortStr (dedupKeep keys)).map (fun k => k ++ " x" ++ toString (countOcc k keys))
  else fd.map fmtFailure

/-- Case-insensitive literal: drop it from the front or fail. -/
def dropPreCI : List Char → List Char → Option (List Char)
  | [], l => some l
  | _ :: _, [] => none
  | p :: ps, c :: cs => if p.toLower == c.toLower then dropPreCI ps cs else none

/-- The regex `^\s*inputSource\s*=\s*"?([^"]+)"?\s*$` (IGNORECASE) of
`parse_model_ini_for_inputsource` (check_dvbs_satellite_flag.py:84). -/
def matchInputSource (line : String) : Option String :=
  match dropPreCI "inputsource".data (line.data.dropWhile isWS) with
  | none => none
  | some r1 =>
    match r1.dropWhile isWS with
    | '=' :: r3 =>
      let r4 := r3.dropWhile isWS
      let r5 := match r4 with
        | '"' :: t => t
        | _ => r4
      let v := r5.takeWhile (· ≠ '"')
      let rest := r5.drop v.length
      if v.isEmpty then none
      else
        match rest with
        | [] => some ⟨v⟩
        | '"' :: r6 => if r6.all isWS then some ⟨v⟩ else none
        | _ => none
    | _ => none

/-- `parse_model_ini_for_inputsource` (check_dvbs_satellite_flag.py:78-87):
first comment-stripped nonempty line matching the inputSource pattern wins;
the captured value is stripped. -/
def parseModelIniForInputsource : List String → String
  | [] => ""
  | raw :: rest =>
    let line := stripComment raw
    if line = "" then parseModelIniForInputsource rest
    else
      match matchInputSource line with
      | some v => sTrim v
      | none => parseModelIniForInputsource rest

/-- `bool(input_source_val and ("DVBS:NULL" in input_source_val))`
(check_dvbs_satellite_flag.py:141). -/
def hasDvbsNullOf (lines : List String) : Bool :=
  let v := parseModelIniForInputsource lines
  v != "" && containsStr v "DVBS:NULL"

/-- `"; ".join(notes)` (`""` when there are no notes). -/
def joinNotes : List String → String
  | [] => ""
  | [n] => n
  | n :: rest => n ++ "; " ++ joinNotes rest

/-- Per-block body of the DVB loop in `check_dvbs_and_satellite_flag`
(check_dvbs_satellite_flag.py:159-175), accumulating
`(checked_count, failed_detail)`. -/
def dvbsBlockStep (fs : String → Option (List String)) (root : String)
    (acc : Nat × List (String × String)) (block : Xml) : Nat × List (String × String) :=
  let tvSys := sUpper (sTrim ((block.findtext "TV_SYSTEM").getD ""))
  if !(tvSys == "DVB" || sStarts tvSys "DVB_") then acc
  else
    let tvCfg := sTrim ((block.findtext "TV_CONFIG").getD "")
    if tvCfg = "" then (acc.1 + 1, acc.2 ++ [("(missing TV_CONFIG)", "NO_FLAG")])
    else
      let cfgPath := resolveTvconfigsPath root tvCfg
      let st := fileFlagState (fs cfgPath) KEY_DVBS
      if st.1 then (acc.1 + 1, acc.2)
      else (acc.1 + 1, acc.2 ++ [(cfgPath, st.2.getD "NO_FLAG")])

def processBlocksDvbs (fs : String → Option (List String)) (root : String)
    (blocks : List Xml) : Nat × List (String × String) :=
  blocks.foldl (dvbsBlockStep fs root) (0, [])

/-- Per-block body of the ISDB loop in `check_ginga_flag`
(check_ginga_flag.py:125-140). -/
def gingaBlockStep (fs : String → Option (List String)) (root : String)
    (acc : Nat × List (String × String)) (block : Xml) : Nat × List (String × String) :=
  let tvSys := sUpper (sTrim ((block.findtext "TV_SYSTEM").getD ""))
  if !(tvSys == "ISDB" || sStarts tvSys "ISDB_") then acc
  else
    let tvCfg := sTrim ((block.findtext "TV_CONFIG").getD "")
    if tvCfg = "" then (acc.1 + 1, acc.2 ++ [("(missing TV_CONFIG)", "NO_FLAG")])
    else
      let cfgPath := resolveTvconfigsPath root tvCfg
      let st := fileFlagState (fs cfgPath) KEY_GINGA
      if st.1 then (acc.1 + 1, acc.2)
      else (acc.1 + 1, acc.2 ++ [(cfgPath, st.2.getD "NO_FLAG")])

def processBlocksGinga (fs : String → Option (List String)) (root : String)
    (blocks : List Xml) : Nat × List (String × String) :=
  blocks.foldl (gingaBlockStep fs root) (0, [])

/-- The dictionary returned by `check_ginga_flag`, with the raw
`failed_detail`/`notes` lists kept alongside the derived report fields. -/
structure GingaResult where
  passed : Bool
  checked_count : Nat
  failed_detail : List (String × String)
  failed_files : List String
  failed_count : Nat
  notes : List String
  notesJoined : String

def mkGingaResult (cc : Nat) (fd : List (String × String)) (notes : List String)
    (dedup : Bool) : GingaResult :=
  { passed := fd.isEmpty && notes.isEmpty
    checked_count := cc
    failed_detail := fd
    failed_files := failedSummary dedup fd
    failed_count := fd.length
    notes := notes
    notesJoined := joinNotes notes }

/-- `check_ginga_flag` (check_ginga_flag.py:109-157).  `xmlText` is the content
of `root/TvSysMap/countryTvSysMap.xml`, `none` when the file does not exist;
`fs` gives the contents of referenced config files; `parse` abstracts
`ET.fromstring`. -/
def checkGingaFlag (parse : String → Option Xml) (xmlText : Option String)
    (fs : String → Option (List String)) (root : String) (dedup : Bool) : GingaResult :=
  match xmlText with
  | none => mkGingaResult 0 [] ["countryTvSysMap.xml not found"] dedup
  | some txt =>
    let bn := loadCountryBlocksGinga parse txt
    let cf := processBlocksGinga fs root bn.1
    mkGingaResult cf.1 cf.2 bn.2 dedup

/-- The dictionary returned by `check_dvbs_and_satellite_flag`. -/
structure DvbsResult where
  passed : Bool
  input_source_check : String
  checked_count : Nat
  failed_detail : List (String × String)
  failed_files : List String
  failed_count : Nat
  notes : List String
  notesJoined : String

def mkDvbsResult (hasNull : Bool) (cc : Nat) (fd : List (String × String))
    (notes : List String) (dedup : Bool) : DvbsResult :=
  { passed := hasNull && fd.isEmpty && notes.isEmpty
    input_source_check := if hasNull then "PASS" else "FAIL"
    checked_count := cc
    failed_detail := fd
    failed_files := failedSummary dedup fd
    failed_count := fd.length
    notes := notes
    notesJoined := joinNotes notes }

/-- `check_dvbs_and_satellite_flag` (check_dvbs_satellite_flag.py:139-195).
`modelIniLines` are the lines of the model ini. -/
def checkDvbsAndSatelliteFlag (modelIniLines : List String)
    (parse : String → Option Xml) (xmlText : Option String)
    (fs : String → Option (List String)) (root : String) (dedup : Bool) : DvbsResult :=
  let hasNull := hasDvbsNullOf modelIniLines
  match xmlText with
  | none => mkDvbsResult hasNull 0 [] ["countryTvSysMap.xml not found"] dedup
  | some txt =>
    let bn := loadCountryBlocksDvbs parse txt
    let cf := processBlocksDvbs fs root bn.1
    mkDvbsResult hasNull cf.1 cf.2 bn.2 dedup

/-- Result of `run_tv_standard_check` restricted to the fields the claims
are about (informational detail lines of the success path are not modelled). -/
structure TvStdResult where
  passed : Bool
  customer_countries_all : List String
  customer_target_countries : List String
  allowed_countries : List String
  missing : List String
  details : List String

/-- The per-document loop of `run_tv_standard_check`
(tv_multi_standard_validation.py:238-246): on the first missing document the
function records an error detail and returns immediately; otherwise the pairs
of all documents are concatenated in order. -/
def collectPairsLoop (ex : String → Bool) (pairsOf : String → List (String × String)) :
    List String → Except String (List (String × String))
  | [] => .ok []
  | p :: rest =>
    if ex p then
      match collectPairsLoop ex pairsOf rest with
      | .ok prs => .ok (pairsOf p ++ prs)
      | .error e => .error e
    else .error ("[ERROR] 缺少 countryTvSysMap.xml 檔: " ++ p)

/-- `run_tv_standard_check` (tv_multi_standard_validation.py:230-280) from the
point where the system map and the country list file have been located:
`countryXmls` are the resolved `<CountryTvSysMapXML>` paths, `ex` their
existence, `pairsOf` the `(normalized country, upper-cased tv_system)` pairs
`_parse_country_tv_pairs` extracts from each document, and `allowedTokens`
the tokens `_parse_country_list` reads from `country/{standard}.ini`. -/
def runTvStandardCheckCore (standard : String) (countryXmls : List String)
    (ex : String → Bool) (pairsOf : String → List (String × String))
    (allowedTokens : List String) : TvStdResult :=
  if countryXmls.isEmpty then
    { passed := false, customer_countries_all := [], customer_target_countries := [],
      allowed_countries := [], missing := [],
      details := ["[ERROR] 沒有 <CountryTvSysMapXML> 指向的檔案"] }
  else
    match collectPairsLoop ex pairsOf countryXmls with
    | .error e =>
      { passed := false, customer_countries_all := [], customer_target_countries := [],
        allowed_countries := [], missing := [], details := [e] }
    | .ok pairs =>
      let customerAll := sortedSet (pairs.map (·.1))
      let customerTarget := sortedSet ((pairs.filter (fun pr => sStarts pr.2 standard)).map (·.1))
      let allowedList := sortedSet allowedTokens
      let missing := sortedSet (customerTarget.filter (fun c => !(allowedList.contains c)))
      { passed := missing.isEmpty, customer_countries_all := customerAll,
        customer_target_countries := customerTarget, allowed_countries := allowedList,
        missing := missing, details := [] }

/-- The matching rule exactly as the specification words it (spec §4.6): a
tv_system value matches a target class iff it equals the class name or starts
with the class name followed by an underscore. -/
def specMatchesClass (cls s : String) : Bool := s == cls || sStarts s (cls ++ "_")

/-- `NAME_TO_ALPHA2` (pid1_config_check.py:71-101). -/
def NAME_TO_ALPHA2 : List (String × String) :=
  [("USA", "US"), ("MEXICO", "MX"), ("CANADA", "CA"), ("AUSTRALIA", "AU"),
   ("THAILAND", "TH"), ("INDONESIA", "ID"), ("VIETNAM", "VN"), ("MALAYSIA", "MY"),
   ("PHILIPPINES", "PH"), ("SOUTH_KOREA", "KR"), ("INDIA", "IN"), ("SPAIN", "ES"),
   ("FRANCE", "FR"), ("GERMANY", "DE"), ("ITALY", "IT"), ("SWEDEN", "SE"),
   ("CZECH", "CZ"), ("UNITED_KINGDOM", "GB"), ("HUNGARY", "HU"), ("NORWAY", "NO"),
   ("FINLAND", "FI"), ("BRAZIL", "BR"), ("COLOMBIA", "CO"), ("URUGUAY", "UY"),
   ("CHILE", "CL"), ("UNITED_STATES", "US"), ("UK", "GB")]

def nameLookup (t : String) : Option String :=
  (NAME_TO_ALPHA2.find? (fun pr => pr.1 == t)).map (·.2)

/-- The denylist of frequent non-country two-letter tokens
(pid1_config_check.py:153 and 157). -/
def noiseTokens : List String := ["ON", "OF", "NO", "IN", "TV", "OS", "PQ", "AV", "EU"]

/-- Python `re.split` by a class of separator characters (separator runs give
extra empty tokens, which the caller skips anyway). -/
def splitAny (seps : List Char) : List Char → List (List Char)
  | [] => [[]]
  | c :: t =>
    if seps.contains c then [] :: splitAny seps t
    else
      match splitAny seps t with
      | [] => [[c]]
      | h :: r => (c :: h) :: r

/-- `tok.strip().upper().replace(" ", "_")` (pid1_config_check.py:145). -/
def normToken (tok : List Char) : String :=
  ⟨((trimWS tok).map Char.toUpper).map (fun c => if c = ' ' then '_' else c)⟩

/-- `re.fullmatch(r"[A-Z]{2}", t)`. -/
def isTwoUpper (s : String) : Bool :=
  s.data.length == 2 && s.data.all Char.isUpper

/-- Add to a Python `set` modelled as a duplicate-free list. -/
def setAdd (s : List String) (x : String) : List String :=
  if x ∈ s then s else s ++ [x]

/-- Word characters for the regex word boundary `\b` (ASCII). -/
def isWordChar (c : Char) : Bool := c.isAlpha || c.isDigit || c = '_'

/-- Maximal runs of word characters, in order; `\b([A-Z]{2})\b` matches exactly
the runs of length two whose characters are upper-case letters. -/
def wordRuns : List Char → List (List Char)
  | [] => []
  | c :: t =>
    let rest := wordRuns t
    if isWordChar c then
      match t with
      | [] => [[c]]
      | t0 :: _ =>
        if isWordChar t0 then
          match rest with
          | r :: rs => (c :: r) :: rs
          | [] => [[c]]
        else [c] :: rest
    else rest

/-- `_extract_country_codes_from_text` (pid1_config_check.py:133-159): split
into tokens, normalize, map known names, accept non-noise two-letter codes,
then also accept non-noise two-letter words found anywhere in the text. -/
def extractCountryCodesFromText (text : String) : List String :=
  let step1 := (splitAny [',', ';', '\r', '\n'] text.data).foldl (fun acc tok =>
    let t := normToken tok
    if t = "" then acc
    else
      match nameLookup t with
      | some code => setAdd acc code
      | none =>
        if isTwoUpper t && !(noiseTokens.contains t) then setAdd acc t else acc) []
  (wordRuns text.data).foldl (fun acc run =>
    if run.length == 2 && run.all Char.isUpper then
      (if noiseTokens.contains ⟨run⟩ then acc else setAdd acc ⟨run⟩)
    else acc) step1

/-- Concrete country-map root used in counterexamples: one block whose
TV_SYSTEM is ATSC. -/
def cexRootAtsc : Xml :=
  Xml.elem "X" none (XmlList.ofList
    [Xml.elem "COUNTRY_TVCONFIG_MAP" none (XmlList.ofList
      [Xml.elem "TV_SYSTEM" (some "ATSC") XmlList.nil])])

/-- A parser that succeeds exactly on the document text `"doc"`. -/
def cexParseAtsc : String → Option Xml :=
  fun s => if s == "doc" then some cexRootAtsc else none

/-- A file system with no files. -/
def cexFsNone : String → Option (List String) := fun _ => none

/-- Model ini lines whose inputSource lacks `DVBS:NULL`. -/
def cexModelNoDvbs : List String := ["inputSource = \"DVBT:ANTENNA\""]

/-- A parser that fails on the raw fragment but succeeds on its `<ROOT>`
wrapping — the situation tier 2 exists for. -/
def cexParseWrapOnly : String → Option Xml :=
  fun s =>
    if s == "<ROOT>frag</ROOT>" then
      some (Xml.elem "ROOT" none (XmlList.ofList [Xml.elem "COUNTRY_TVCONFIG_MAP" none XmlList.nil]))
    else none

/-- A parser that always raises. -/
def parseNoneAll : String → Option Xml := fun _ => none

/-- Existence test for the two-document chain: only `"b"` exists. -/
def cexExB : String → Bool := fun p => p == "b"

/-- Pair extraction for the two-document chain: document `"b"` declares
France as DVB. -/
def cexPairsFr : String → List (String × String) :=
  fun p => if p == "b" then [("FRANCE", "DVB")] else []

/-- Everything exists. -/
def exTrue : String → Bool := fun _ => true

/-- A document declaring a tv_system `DVBX` that extends the class name
without an underscore. -/
def cexPairsDvbx : String → List (String × String) := fun _ => [("X_LAND", "DVBX")]

/-- The empty-line skip in `_file_flag_state` never changes the outcome: an
empty stripped line cannot contain the nonempty pattern. -/
theorem flagLineHit_eq (key raw : String) :
    flagLineHit key raw = containsStr (removeSpaces (stripComment raw)) (key ++ "=0") := by
  unfold flagLineHit
  by_cases h : stripComment raw = ""
  · rw [h]
    simp only [if_pos rfl]
    obtain ⟨kd⟩ := key
    show false = containsStr (removeSpaces "") (String.mk kd ++ "=0")
    have : removeSpaces "" = "" := rfl
    rw [this]
    show false = listContains (kd ++ ['=', '0']) []
    cases kd <;> rfl
  · rw [if_neg h]

/-- C7: `_file_flag_state` succeeds iff some comment-stripped line contains the
space-insensitive `key=0` assertion; a missing file reports `MISSING` (the
`MISSING_FILE` of the specification), an existing file without the assertion
reports `NO_FLAG`, and the two reasons are distinct. -/
theorem C7_flag_reasons (contents : Option (List String)) (key : String) :
    ((fileFlagState contents key).1 = true ↔
      ∃ raw ∈ contents.getD [],
        containsStr (removeSpaces (stripComment raw)) (key ++ "=0") = true) ∧
    (contents = none → fileFlagState contents key = (false, some "MISSING")) ∧
    (∀ lines, contents = some lines → (fileFlagState contents key).1 = false →
      fileFlagState contents key = (false, some "NO_FLAG")) ∧
    ("MISSING" : String) ≠ "NO_FLAG" := by
  have hfun : flagLineHit key = fun raw =>
      containsStr (removeSpaces (stripComment raw)) (key ++ "=0") :=
    funext (flagLineHit_eq key)
  refine ⟨?_, ?_, ?_, by decide⟩
  · cases contents with
    | none => simp [fileFlagState]
    | some lines =>
      by_cases hany : lines.any (flagLineHit key) = true
      · simp only [fileFlagState, if_pos hany, Option.getD]
        rw [hfun] at hany
        simpa [List.any_eq_true] using hany
      · simp only [fileFlagState, if_neg hany, Option.getD]
        rw [hfun] at hany
        simp only [List.any_eq_true] at hany
        simpa using hany
  · intro h; subst h; rfl
  · intro lines h hfalse
    subst h
    by_cases hany : lines.any (flagLineHit key) = true
    · simp [fileFlagState, hany] at hfalse
    · simp [fileFlagState, hany]

/-- Witness for C7 at concrete inputs. -/
theorem C7_witness :
    (fileFlagState (some ["x = 1", "k = 0"]) "k").1 = true ∧
    fileFlagState none "k" = (false, some "MISSING") ∧
    fileFlagState (some ["x = 1"]) "k" = (false, some "NO_FLAG") := by
  refine ⟨?_, ?_, ?_⟩
  · exact (C7_flag_reasons (some ["x = 1", "k = 0"]) "k").1.mpr
      ⟨"k = 0", by decide, by decide⟩
  · exact (C7_flag_reasons none "k").2.1 rfl
  · exact (C7_flag_reasons (some ["x = 1"]) "k").2.2.1 ["x = 1"] rfl (by decide)

/-- C3 counterexample: `_resolve_from_root` does not return an absolute
non-tvconfigs reference unchanged; it joins it under the root. -/
theorem C3_counterexample :
    sStarts "/abs/x" "/" = true ∧ sStarts "/abs/x" "/tvconfigs/" = false ∧
    resolveFromRoot "/r" "/abs/x" = "/r/abs/x" ∧
    resolveFromRoot "/r" "/abs/x" ≠ "/abs/x" := by decide

/-- C3 amended: the four ordered rules hold for `_resolve_tvconfigs_path`
(dvbs/ginga checkers); `_resolve_from_root` (multi-standard validator) instead
joins any other absolute reference under the root after stripping its leading
slashes. -/
theorem C3_resolution_rules :
    (∀ root ref, resolveTvconfigsPath root ref = specResolve root ref) ∧
    (∀ root g, trimGiven g = g → g ≠ "" → sStarts g "/tvconfigs/" = false →
      sStarts g "/" = true →
      resolveFromRoot root g = normpath (pathJoin root ⟨g.data.dropWhile (· = '/')⟩)) := by
  refine ⟨fun root ref => rfl, ?_⟩
  intro root g ht hne h1 h2
  unfold resolveFromRoot
  rw [ht]
  simp [hne, h1, h2]

/-- Witness for C3 amended at concrete inputs. -/
theorem C3_witness :
    resolveTvconfigsPath "/r" "/tvconfigs/a" = specResolve "/r" "/tvconfigs/a" ∧
    resolveFromRoot "/r" "/abs/x" =
      normpath (pathJoin "/r" ⟨"/abs/x".data.dropWhile (· = '/')⟩) := by
  exact ⟨C3_resolution_rules.1 "/r" "/tvconfigs/a",
    C3_resolution_rules.2 "/r" "/abs/x" (by decide) (by decide) (by decide) (by decide)⟩

/-- C9: country normalization maps `UNITED_KINGDOM` to `GB`, accepts the
unknown two-letter token `XX`, and rejects the denylisted tokens `EU`, `ON`,
`IN`, `TV`. -/
theorem C9_normalization :
    extractCountryCodesFromText "UNITED_KINGDOM" = ["GB"] ∧
    extractCountryCodesFromText "XX" = ["XX"] ∧
    extractCountryCodesFromText "EU" = [] ∧
    extractCountryCodesFromText "ON" = [] ∧
    extractCountryCodesFromText "IN" = [] ∧
    extractCountryCodesFromText "TV" = [] := by decide

theorem dvbsTier3_fst (parse : String → Option Xml) (txtND : String)
    (ne : Option String) (we : String) :
    (dvbsTier23.dvbsTier3 parse txtND ne we).1 = tier3Blocks parse txtND := by
  unfold dvbsTier23.dvbsTier3
  cases ne <;> by_cases h : (tier3Blocks parse txtND).isEmpty = true <;> simp [h]

theorem gingaTier3_fst (parse : String → Option Xml) (txtND : String)
    (notes : List String) :
    (gingaTier23.gingaTier3 parse txtND notes).1 = tier3Blocks parse txtND := by
  unfold gingaTier23.gingaTier3
  by_cases h : (tier3Blocks parse txtND).isEmpty = true <;> simp [h]

theorem dvbsTier23_fst (parse : String → Option Xml) (txtND : String) (ne : Option String) :
    (dvbsTier23 parse txtND ne).1 =
      if (tier2Blocks parse txtND).isEmpty = true then tier3Blocks parse txtND
      else tier2Blocks parse txtND := by
  unfold dvbsTier23
  cases hp : parse ("<ROOT>" ++ txtND ++ "</ROOT>") with
  | none =>
    have h2 : tier2Blocks parse txtND = [] := by unfold tier2Blocks; rw [hp]
    simp only [hp]
    simp [dvbsTier3_fst, h2]
  | some root =>
    have h2 : tier2Blocks parse txtND = Xml.findallDesc MAP_TAG root := by
      unfold tier2Blocks; rw [hp]
    simp only [hp]
    rw [← h2]
    by_cases hb : (tier2Blocks parse txtND).isEmpty = true
    · simp [hb, dvbsTier3_fst]
    · simp [hb]

theorem gingaTier23_fst (parse : String → Option Xml) (txtND : String) (notes : List String) :
    (gingaTier23 parse txtND notes).1 =
      if (tier2Blocks parse txtND).isEmpty = true then tier3Blocks parse txtND
      else tier2Blocks parse txtND := by
  unfold gingaTier23
  cases hp : parse ("<ROOT>" ++ txtND ++ "</ROOT>") with
  | none =>
    have h2 : tier2Blocks parse txtND = [] := by unfold tier2Blocks; rw [hp]
    simp only [hp]
    simp [gingaTier3_fst, h2]
  | some root =>
    have h2 : tier2Blocks parse txtND = Xml.findallDesc MAP_TAG root := by
      unfold tier2Blocks; rw [hp]
    simp only [hp]
    rw [← h2]
    by_cases hb : (tier2Blocks parse txtND).isEmpty = true
    · simp [hb, gingaTier3_fst]
    · simp [hb]

/-- C4: both `_load_country_blocks` variants return the blocks of the first
tier that yields at least one block, in the strict order tier1, tier2, tier3,
never invoking a later tier after an earlier one succeeded. -/
theorem C4_tier_order (parse : String → Option Xml) (txt : String) :
    (loadCountryBlocksDvbs parse txt).1 = specTieredBlocks parse txt ∧
    (loadCountryBlocksGinga parse txt).1 = specTieredBlocks parse txt := by
  constructor
  · unfold loadCountryBlocksDvbs specTieredBlocks
    cases hp : parse (stripXmlDecl txt) with
    | none =>
      have h1 : tier1Blocks parse (stripXmlDecl txt) = [] := by
        unfold tier1Blocks; rw [hp]
      simp only [hp]
      simp [dvbsTier23_fst, h1]
    | some root =>
      have h1 : tier1Blocks parse (stripXmlDecl txt) =
          (let bs := Xml.findallDesc MAP_TAG root
           if bs.isEmpty then (if root.tag == MAP_TAG then [root] else []) else bs) := by
        unfold tier1Blocks; rw [hp]
      simp only [hp]
      rw [← h1]
      by_cases hb : (tier1Blocks parse (stripXmlDecl txt)).isEmpty = true
      · simp [hb, dvbsTier23_fst]
      · simp [hb]
  · unfold loadCountryBlocksGinga specTieredBlocks
    cases hp : parse (stripXmlDecl txt) with
    | none =>
      have h1 : tier1Blocks parse (stripXmlDecl txt) = [] := by
        unfold tier1Blocks; rw [hp]
      simp only [hp]
      simp [gingaTier23_fst, h1]
    | some root =>
      have h1 : tier1Blocks parse (stripXmlDecl txt) =
          (let bs := Xml.findallDesc MAP_TAG root
           if bs.isEmpty then (if root.tag == MAP_TAG then [root] else []) else bs) := by
        unfold tier1Blocks; rw [hp]
      simp only [hp]
      rw [← h1]
      by_cases hb : (tier1Blocks parse (stripXmlDecl txt)).isEmpty = true
      · simp [hb, gingaTier23_fst]
      · simp [hb]

/-- C5 counterexample: with a fragment that only parses once wrapped, the
ginga loader returns tier-2 blocks together with the tier-1 parse-failure
note — a note from an earlier failed tier survives the success of a later tier. -/
theorem C5_counterexample :
    (loadCountryBlocksGinga cexParseWrapOnly "frag").1.isEmpty = false ∧
    (loadCountryBlocksGinga cexParseWrapOnly "frag").2 = ["XML normal parse failed"] := by
  decide

theorem dvbsTier3_spec (parse : String → Option Xml) (txtND : String)
    (ne : Option String) (we : String) :
    ((dvbsTier23.dvbsTier3 parse txtND ne we).2 = [] ↔
      (dvbsTier23.dvbsTier3 parse txtND ne we).1.isEmpty = false) ∧
    ((dvbsTier23.dvbsTier3 parse txtND ne we).1.isEmpty = true →
      "No COUNTRY_TVCONFIG_MAP blocks found after all parse strategies" ∈
        (dvbsTier23.dvbsTier3 parse txtND ne we).2) := by
  unfold dvbsTier23.dvbsTier3
  cases ne <;> by_cases h : (tier3Blocks parse txtND).isEmpty = true <;> simp [h]

theorem dvbsTier23_spec (parse : String → Option Xml) (txtND : String) (ne : Option String) :
    ((dvbsTier23 parse txtND ne).2 = [] ↔ (dvbsTier23 parse txtND ne).1.isEmpty = false) ∧
    ((dvbsTier23 parse txtND ne).1.isEmpty = true →
      "No COUNTRY_TVCONFIG_MAP blocks found after all parse strategies" ∈
        (dvbsTier23 parse txtND ne).2) := by
  unfold dvbsTier23
  cases hp : parse ("<ROOT>" ++ txtND ++ "</ROOT>") with
  | none =>
    simp only [hp]
    exact dvbsTier3_spec parse txtND ne "XML wrapped parse failed"
  | some root =>
    simp only [hp]
    by_cases hb : (Xml.findallDesc MAP_TAG root).isEmpty = true
    · simp only [hb, if_pos rfl]
      exact dvbsTier3_spec parse txtND ne "wrapped ok but no COUNTRY_TVCONFIG_MAP blocks"
    · simp [hb]

theorem gingaTier3_mem (parse : String → Option Xml) (txtND : String) (notes : List String) :
    (gingaTier23.gingaTier3 parse txtND notes).1.isEmpty = true →
      "No COUNTRY_TVCONFIG_MAP blocks found" ∈ (gingaTier23.gingaTier3 parse txtND notes).2 := by
  unfold gingaTier23.gingaTier3
  by_cases h : (tier3Blocks parse txtND).isEmpty = true <;> simp [h]

theorem gingaTier23_mem (parse : String → Option Xml) (txtND : String) (notes : List String) :
    (gingaTier23 parse txtND notes).1.isEmpty = true →
      "No COUNTRY_TVCONFIG_MAP blocks found" ∈ (gingaTier23 parse txtND notes).2 := by
  unfold gingaTier23
  cases hp : parse ("<ROOT>" ++ txtND ++ "</ROOT>") with
  | none =>
    simp only [hp]
    exact gingaTier3_mem parse txtND (notes ++ ["XML wrapped parse failed"])
  | some root =>
    simp only [hp]
    by_cases hb : (Xml.findallDesc MAP_TAG root).isEmpty = true
    · simp only [hb, if_pos rfl]
      exact gingaTier3_mem parse txtND notes
    · simp [hb]

/-- C5 amended: the dvbs loader records notes exactly when all three tiers
yield zero blocks, and then includes its summary note; the ginga loader
records tier-failure notes eagerly (see the counterexample), but when all
tiers fail it also records its summary note. -/
theorem C5_notes (parse : String → Option Xml) (txt : String) :
    ((loadCountryBlocksDvbs parse txt).2 = [] ↔
      (loadCountryBlocksDvbs parse txt).1.isEmpty = false) ∧
    ((loadCountryBlocksDvbs parse txt).1.isEmpty = true →
      "No COUNTRY_TVCONFIG_MAP blocks found after all parse strategies" ∈
        (loadCountryBlocksDvbs parse txt).2) ∧
    ((loadCountryBlocksGinga parse txt).1.isEmpty = true →
      "No COUNTRY_TVCONFIG_MAP blocks found" ∈ (loadCountryBlocksGinga parse txt).2) := by
  refine ⟨?_, ?_, ?_⟩
  · unfold loadCountryBlocksDvbs
    cases hp : parse (stripXmlDecl txt) with
    | none =>
      simp only [hp]
      exact (dvbsTier23_spec parse (stripXmlDecl txt) (some "XML normal parse failed")).1
    | some root =>
      have h1 : tier1Blocks parse (stripXmlDecl txt) =
          (let bs := Xml.findallDesc MAP_TAG root
           if bs.isEmpty then (if root.tag == MAP_TAG then [root] else []) else bs) := by
        unfold tier1Blocks; rw [hp]
      simp only [hp]
      rw [← h1]
      by_cases hb : (tier1Blocks parse (stripXmlDecl txt)).isEmpty = true
      · rw [if_pos hb]
        exact (dvbsTier23_spec parse (stripXmlDecl txt) none).1
      · rw [if_neg hb]
        simp only [Bool.not_eq_true] at hb
        simp [hb]
  · unfold loadCountryBlocksDvbs
    cases hp : parse (stripXmlDecl txt) with
    | none =>
      simp only [hp]
      exact (dvbsTier23_spec parse (stripXmlDecl txt) (some "XML normal parse failed")).2
    | some root =>
      have h1 : tier1Blocks parse (stripXmlDecl txt) =
          (let bs := Xml.findallDesc MAP_TAG root
           if bs.isEmpty then (if root.tag == MAP_TAG then [root] else []) else bs) := by
        unfold tier1Blocks; rw [hp]
      simp only [hp]
      rw [← h1]
      by_cases hb : (tier1Blocks parse (stripXmlDecl txt)).isEmpty = true
      · rw [if_pos hb]
        exact (dvbsTier23_spec parse (stripXmlDecl txt) none).2
      · rw [if_neg hb]
        simp only [Bool.not_eq_true] at hb
        simp [hb]
  · unfold loadCountryBlocksGinga
    cases hp : parse (stripXmlDecl txt) with
    | none =>
      simp only [hp]
      exact gingaTier23_mem parse (stripXmlDecl txt) ["XML normal parse failed"]
    | some root =>
      have h1 : tier1Blocks parse (stripXmlDecl txt) =
          (let bs := Xml.findallDesc MAP_TAG root
           if bs.isEmpty then (if root.tag == MAP_TAG then [root] else []) else bs) := by
        unfold tier1Blocks; rw [hp]
      simp only [hp]
      rw [← h1]
      by_cases hb : (tier1Blocks parse (stripXmlDecl txt)).isEmpty = true
      · rw [if_pos hb]
        exact gingaTier23_mem parse (stripXmlDecl txt) []
      · rw [if_neg hb]
        simp only [Bool.not_eq_true] at hb
        simp [hb]

/-- Witness for C5 amended: with a parser that always fails and an untagged
document, all tiers fail and both loaders record their summary notes. -/
theorem C5_witness :
    "No COUNTRY_TVCONFIG_MAP blocks found after all parse strategies" ∈
      (loadCountryBlocksDvbs parseNoneAll "z").2 ∧
    "No COUNTRY_TVCONFIG_MAP blocks found" ∈ (loadCountryBlocksGinga parseNoneAll "z").2 := by
  exact ⟨(C5_notes parseNoneAll "z").2.1 (by decide), (C5_notes parseNoneAll "z").2.2 (by decide)⟩

theorem mkGingaResult_passed (cc : Nat) (fd : List (String × String))
    (notes : List String) (dedup : Bool) :
    (mkGingaResult cc fd notes dedup).passed = true ↔ (fd = [] ∧ notes = []) := by
  simp [mkGingaResult, Bool.and_eq_true, List.isEmpty_iff]

theorem mkDvbsResult_passed (hasNull : Bool) (cc : Nat) (fd : List (String × String))
    (notes : List String) (dedup : Bool) :
    (mkDvbsResult hasNull cc fd notes dedup).passed = true ↔
      (hasNull = true ∧ fd = [] ∧ notes = []) := by
  simp [mkDvbsResult, Bool.and_eq_true, List.isEmpty_iff, and_assoc]

/-- C1 counterexample: a run of the dvbs checker with zero failures and zero
notes (the only block is ATSC, so nothing is checked) still has
`passed = false`, because the inputSource condition is folded into `passed`. -/
theorem C1_counterexample :
    (checkDvbsAndSatelliteFlag cexModelNoDvbs cexParseAtsc (some "doc") cexFsNone "/r" true).failed_detail = [] ∧
    (checkDvbsAndSatelliteFlag cexModelNoDvbs cexParseAtsc (some "doc") cexFsNone "/r" true).notes = [] ∧
    (checkDvbsAndSatelliteFlag cexModelNoDvbs cexParseAtsc (some "doc") cexFsNone "/r" true).passed = false := by
  decide

/-- C1 amended: `passed == (failures empty ∧ notes empty)` holds for the ginga
checker; the dvbs checker additionally requires the model ini inputSource to
contain `DVBS:NULL`. -/
theorem C1_passed_invariant (parse : String → Option Xml) (xmlText : Option String)
    (fs : String → Option (List String)) (root : String) (dedup : Bool)
    (modelLines : List String) :
    ((checkGingaFlag parse xmlText fs root dedup).passed = true ↔
      ((checkGingaFlag parse xmlText fs root dedup).failed_detail = [] ∧
        (checkGingaFlag parse xmlText fs root dedup).notes = [])) ∧
    ((checkDvbsAndSatelliteFlag modelLines parse xmlText fs root dedup).passed = true ↔
      (hasDvbsNullOf modelLines = true ∧
        (checkDvbsAndSatelliteFlag modelLines parse xmlText fs root dedup).failed_detail = [] ∧
        (checkDvbsAndSatelliteFlag modelLines parse xmlText fs root dedup).notes = [])) := by
  constructor
  · cases xmlText with
    | none =>
      exact mkGingaResult_passed 0 [] ["countryTvSysMap.xml not found"] dedup
    | some txt =>
      exact mkGingaResult_passed (processBlocksGinga fs root (loadCountryBlocksGinga parse txt).1).1
        (processBlocksGinga fs root (loadCountryBlocksGinga parse txt).1).2
        (loadCountryBlocksGinga parse txt).2 dedup
  · cases xmlText with
    | none =>
      exact mkDvbsResult_passed (hasDvbsNullOf modelLines) 0 [] ["countryTvSysMap.xml not found"] dedup
    | some txt =>
      exact mkDvbsResult_passed (hasDvbsNullOf modelLines)
        (processBlocksDvbs fs root (loadCountryBlocksDvbs parse txt).1).1
        (processBlocksDvbs fs root (loadCountryBlocksDvbs parse txt).1).2
        (loadCountryBlocksDvbs parse txt).2 dedup

/-- Witness for C1 amended at concrete inputs. -/
theorem C1_witness :
    (checkGingaFlag cexParseAtsc (some "doc") cexFsNone "/r" true).passed = true ∧
    (checkDvbsAndSatelliteFlag cexModelNoDvbs cexParseAtsc (some "doc") cexFsNone "/r" true).passed = false := by
  constructor
  · exact (C1_passed_invariant cexParseAtsc (some "doc") cexFsNone "/r" true []).1.mpr
      ⟨by decide, by decide⟩
  · have h := (C1_passed_invariant cexParseAtsc (some "doc") cexFsNone "/r" true cexModelNoDvbs).2
    by_cases hp : (checkDvbsAndSatelliteFlag cexModelNoDvbs cexParseAtsc (some "doc") cexFsNone "/r" true).passed = true
    · exact absurd (h.mp hp).1 (by decide)
    · simpa using hp

theorem collectPairsLoop_error (ex : String → Bool)
    (pairsOf : String → List (String × String)) :
    ∀ xmls : List String, (∃ p ∈ xmls, ex p = false) →
      ∃ e, collectPairsLoop ex pairsOf xmls = .error e := by
  intro xmls
  induction xmls with
  | nil => simp
  | cons p rest ih =>
    rintro ⟨q, hq, hfalse⟩
    by_cases hp : ex p = true
    · have hqr : q ∈ rest := by
        rcases List.mem_cons.mp hq with rfl | h
        · rw [hp] at hfalse; cases hfalse
        · exact h
      obtain ⟨e, he⟩ := ih ⟨q, hqr, hfalse⟩
      refine ⟨e, ?_⟩
      simp [collectPairsLoop, hp, he]
    · refine ⟨"[ERROR] 缺少 countryTvSysMap.xml 檔: " ++ p, ?_⟩
      simp [collectPairsLoop, hp]

theorem collectPairsLoop_ok (ex : String → Bool)
    (pairsOf : String → List (String × String)) :
    ∀ xmls : List String, (∀ p ∈ xmls, ex p = true) →
      collectPairsLoop ex pairsOf xmls = .ok ((xmls.map pairsOf).flatten) := by
  intro xmls
  induction xmls with
  | nil => simp [collectPairsLoop]
  | cons p rest ih =>
    intro h
    have hp : ex p = true := h p (List.mem_cons_self p rest)
    have hrest := ih (fun q hq => h q (List.mem_cons_of_mem p hq))
    simp [collectPairsLoop, hp, hrest]

/-- C2 counterexample: with two referenced documents of which the first is
missing, the entries of the existing second document never reach the result
and the walk fails — a missing document does abort the whole walk. -/
theorem C2_counterexample :
    (runTvStandardCheckCore "DVB" ["a", "b"] cexExB cexPairsFr []).passed = false ∧
    (runTvStandardCheckCore "DVB" ["a", "b"] cexExB cexPairsFr []).customer_target_countries = [] ∧
    (runTvStandardCheckCore "DVB" ["a", "b"] cexExB cexPairsFr []).customer_countries_all = [] ∧
    cexExB "b" = true ∧ cexPairsFr "b" = [("FRANCE", "DVB")] := by
  decide

/-- C2 amended: when some referenced per-country map document does not exist,
`run_tv_standard_check` records the error detail and returns immediately with
`passed = false` and empty country lists; remaining documents contribute
nothing. -/
theorem C2_missing_aborts (standard : String) (xmls : List String)
    (ex : String → Bool) (pairsOf : String → List (String × String))
    (allowed : List String) (h : ∃ p ∈ xmls, ex p = false) :
    (runTvStandardCheckCore standard xmls ex pairsOf allowed).passed = false ∧
    (runTvStandardCheckCore standard xmls ex pairsOf allowed).customer_countries_all = [] ∧
    (runTvStandardCheckCore standard xmls ex pairsOf allowed).customer_target_countries = [] ∧
    (runTvStandardCheckCore standard xmls ex pairsOf allowed).details ≠ [] := by
  obtain ⟨e, he⟩ := collectPairsLoop_error ex pairsOf xmls h
  have hne : xmls.isEmpty = false := by
    obtain ⟨p, hp, -⟩ := h
    cases xmls with
    | nil => cases hp
    | cons a t => rfl
  unfold runTvStandardCheckCore
  rw [hne]
  simp [he]

/-- Witness for C2 amended at the counterexample inputs. -/
theorem C2_witness :
    (runTvStandardCheckCore "DVB" ["a", "b"] cexExB cexPairsFr []).passed = false ∧
    (runTvStandardCheckCore "DVB" ["a", "b"] cexExB cexPairsFr []).customer_countries_all = [] ∧
    (runTvStandardCheckCore "DVB" ["a", "b"] cexExB cexPairsFr []).customer_target_countries = [] ∧
    (runTvStandardCheckCore "DVB" ["a", "b"] cexExB cexPairsFr []).details ≠ [] :=
  C2_missing_aborts "DVB" ["a", "b"] cexExB cexPairsFr [] ⟨"a", by decide, by decide⟩

theorem charToNatInj (a b : Char) (h : a.toNat = b.toNat) : a = b :=
  Char.ext (UInt32.ext h)

theorem lexLe_total : ∀ a b, lexLe a b = true ∨ lexLe b a = true := by
  intro a
  induction a with
  | nil => intro b; left; simp [lexLe]
  | cons x xs ih =>
    intro b
    cases b with
    | nil => right; simp [lexLe]
    | cons y ys =>
      simp only [lexLe]
      by_cases h1 : x.toNat < y.toNat
      · left; simp [h1]
      · by_cases h2 : y.toNat < x.toNat
        · right; simp [h2]
        · simp only [h1, h2, if_false]
          simpa using ih ys

theorem lexLe_trans : ∀ a b c, lexLe a b = true → lexLe b c = true → lexLe a c = true := by
  intro a
  induction a with
  | nil => intro b c _ _; simp [lexLe]
  | cons x xs ih =>
    intro b c hab hbc
    cases b with
    | nil => simp [lexLe] at hab
    | cons y ys =>
      cases c with
      | nil => simp [lexLe] at hbc
      | cons z zs =>
        simp only [lexLe] at hab hbc ⊢
        by_cases hxy : x.toNat < y.toNat
        · by_cases hyz : y.toNat < z.toNat
          · have h : x.toNat < z.toNat := Nat.lt_trans hxy hyz
            simp [h]
          · by_cases hzy : z.toNat < y.toNat
            · simp [hyz, hzy] at hbc
            · have h : x.toNat < z.toNat := by omega
              simp [h]
        · by_cases hyx : y.toNat < x.toNat
          · simp [hxy, hyx] at hab
          · by_cases hyz : y.toNat < z.toNat
            · have h : x.toNat < z.toNat := by omega
              simp [h]
            · by_cases hzy : z.toNat < y.toNat
              · simp [hyz, hzy] at hbc
              · have hxz : ¬ x.toNat < z.toNat := by omega
                have hzx : ¬ z.toNat < x.toNat := by omega
                simp only [hxy, hyx, if_neg] at hab
                simp only [hyz, hzy, if_neg] at hbc
                simp only [hxz, hzx, if_neg]
                exact ih ys zs hab hbc

theorem lexLe_antisymm : ∀ a b, lexLe a b = true → lexLe b a = true → a = b := by
  intro a
  induction a with
  | nil =>
    intro b hab hba
    cases b with
    | nil => rfl
    | cons y ys => simp [lexLe] at hba
  | cons x xs ih =>
    intro b hab hba
    cases b with
    | nil => simp [lexLe] at hab
    | cons y ys =>
      simp only [lexLe] at hab hba
      by_cases h1 : x.toNat < y.toNat
      · have h1' : ¬ y.toNat < x.toNat := by omega
        simp [h1, h1'] at hba
      · by_cases h2 : y.toNat < x.toNat
        · simp [h1, h2] at hab
        · have hxy : x = y := charToNatInj x y (by omega)
          subst hxy
          simp only [h1, h2, if_neg] at hab hba
          rw [ih ys hab hba]

theorem sLeb_total (a b : String) : sLeb a b = true ∨ sLeb b a = true :=
  lexLe_total a.data b.data

theorem sLeb_trans {a b c : String} (h1 : sLeb a b = true) (h2 : sLeb b c = true) :
    sLeb a c = true :=
  lexLe_trans a.data b.data c.data h1 h2

theorem sLeb_antisymm (a b : String) (h1 : sLeb a b = true) (h2 : sLeb b a = true) :
    a = b := by
  obtain ⟨ad⟩ := a
  obtain ⟨bd⟩ := b
  exact congrArg String.mk (lexLe_antisymm ad bd h1 h2)

theorem mem_insertStr (x a : String) : ∀ l, a ∈ insertStr x l ↔ a = x ∨ a ∈ l := by
  intro l
  induction l with
  | nil => simp [insertStr]
  | cons y ys ih =>
    simp only [insertStr]
    by_cases h : sLeb x y = true
    · simp [h, List.mem_cons]
    · rw [if_neg h]
      simp only [List.mem_cons, ih]
      tauto

theorem perm_insertStr (x : String) : ∀ l, List.Perm (insertStr x l) (x :: l) := by
  intro l
  induction l with
  | nil => simp [insertStr]
  | cons y ys ih =>
    simp only [insertStr]
    by_cases h : sLeb x y = true
    · simp [h]
    · rw [if_neg h]
      exact ((ih.cons y).trans (List.Perm.swap x y ys))

theorem perm_sortStr : ∀ l, List.Perm (sortStr l) l := by
  intro l
  induction l with
  | nil => simp [sortStr]
  | cons x xs ih => exact (perm_insertStr x (sortStr xs)).trans (ih.cons x)

theorem pairwise_insertStr (x : String) :
    ∀ l, l.Pairwise (fun a b => sLeb a b = true) →
      (insertStr x l).Pairwise (fun a b => sLeb a b = true) := by
  intro l
  induction l with
  | nil => intro _; simp [insertStr]
  | cons y ys ih =>
    intro hp
    rcases List.pairwise_cons.mp hp with ⟨hy, hys⟩
    simp only [insertStr]
    by_cases h : sLeb x y = true
    · rw [if_pos h]
      refine List.pairwise_cons.mpr ⟨?_, hp⟩
      intro z hz
      rcases List.mem_cons.mp hz with rfl | hz'
      · exact h
      · exact sLeb_trans h (hy z hz')
    · rw [if_neg h]
      have hyx : sLeb y x = true := (sLeb_total x y).resolve_left h
      refine List.pairwise_cons.mpr ⟨?_, ih hys⟩
      intro z hz
      rcases (mem_insertStr x z ys).mp hz with rfl | hz'
      · exact hyx
      · exact hy z hz'

theorem pairwise_sortStr : ∀ l, (sortStr l).Pairwise (fun a b => sLeb a b = true) := by
  intro l
  induction l with
  | nil => simp [sortStr]
  | cons x xs ih => exact pairwise_insertStr x (sortStr xs) ih

theorem mem_dedupAux {α : Type} [DecidableEq α] (a : α) :
    ∀ (l seen : List α), a ∈ dedupAux seen l ↔ (a ∈ l ∧ a ∉ seen) := by
  intro l
  induction l with
  | nil => intro seen; simp [dedupAux]
  | cons x xs ih =>
    intro seen
    simp only [dedupAux]
    by_cases hx : x ∈ seen
    · rw [if_pos hx, ih seen]
      constructor
      · rintro ⟨h1, h2⟩
        exact ⟨List.mem_cons_of_mem x h1, h2⟩
      · rintro ⟨h1, h2⟩
        rcases List.mem_cons.mp h1 with rfl | h1'
        · exact absurd hx h2
        · exact ⟨h1', h2⟩
    · rw [if_neg hx]
      simp only [List.mem_cons, ih (x :: seen)]
      constructor
      · rintro (rfl | ⟨h1, h2⟩)
        · exact ⟨Or.inl rfl, hx⟩
        · exact ⟨Or.inr h1, fun hs => h2 (Or.inr hs)⟩
      · rintro ⟨rfl | h1, h2⟩
        · exact Or.inl rfl
        · by_cases hax : a = x
          · exact Or.inl hax
          · refine Or.inr ⟨h1, ?_⟩
            intro hs
            rcases hs with rfl | hs'
            · exact hax rfl
            · exact h2 hs'

theorem nodup_dedupAux {α : Type} [DecidableEq α] :
    ∀ (l seen : List α), (dedupAux seen l).Nodup := by
  intro l
  induction l with
  | nil => intro seen; simp [dedupAux]
  | cons x xs ih =>
    intro seen
    simp only [dedupAux]
    by_cases hx : x ∈ seen
    · rw [if_pos hx]; exact ih seen
    · rw [if_neg hx]
      refine List.nodup_cons.mpr ⟨?_, ih (x :: seen)⟩
      intro hmem
      exact ((mem_dedupAux x xs (x :: seen)).mp hmem).2 (List.mem_cons_self x seen)

theorem mem_dedupKeep {α : Type} [DecidableEq α] (a : α) (l : List α) :
    a ∈ dedupKeep l ↔ a ∈ l := by
  unfold dedupKeep
  rw [mem_dedupAux]
  simp

theorem nodup_dedupKeep {α : Type} [DecidableEq α] (l : List α) : (dedupKeep l).Nodup :=
  nodup_dedupAux l []

theorem mem_sortedSet (a : String) (l : List String) : a ∈ sortedSet l ↔ a ∈ l := by
  unfold sortedSet
  rw [(perm_sortStr (dedupKeep l)).mem_iff, mem_dedupKeep]

theorem nodup_sortedSet (l : List String) : (sortedSet l).Nodup :=
  ((perm_sortStr (dedupKeep l)).nodup_iff).mpr (nodup_dedupKeep l)

theorem strictSorted_sortedSet (l : List String) :
    (sortedSet l).Pairwise (fun a b => sLtb a b = true) := by
  have h1 : (sortedSet l).Pairwise (fun a b => sLeb a b = true) := pairwise_sortStr _
  have h2 : (sortedSet l).Nodup := nodup_sortedSet l
  refine (h1.and h2).imp ?_
  rintro a b ⟨hle, hne⟩
  have hba : sLeb b a = false := by
    rcases Bool.eq_false_or_eq_true (sLeb b a) with h | h
    · exact absurd (sLeb_antisymm a b hle h) hne
    · exact h
  simp [sLtb, hle, hba]

theorem runCore_ok (standard : String) (xmls : List String) (ex : String → Bool)
    (pairsOf : String → List (String × String)) (allowed : List String)
    (prs : List (String × String))
    (hne : xmls.isEmpty = false)
    (hok : collectPairsLoop ex pairsOf xmls = .ok prs) :
    runTvStandardCheckCore standard xmls ex pairsOf allowed =
      { passed := (sortedSet ((sortedSet ((prs.filter (fun pr => sStarts pr.2 standard)).map (·.1))).filter
            (fun c => !((sortedSet allowed).contains c)))).isEmpty
        customer_countries_all := sortedSet (prs.map (·.1))
        customer_target_countries := sortedSet ((prs.filter (fun pr => sStarts pr.2 standard)).map (·.1))
        allowed_countries := sortedSet allowed
        missing := sortedSet ((sortedSet ((prs.filter (fun pr => sStarts pr.2 standard)).map (·.1))).filter
            (fun c => !((sortedSet allowed).contains c)))
        details := [] } := by
  unfold runTvStandardCheckCore
  rw [hne, hok]
  rfl

theorem contains_eq_false_iff (L : List String) (c : String) :
    (L.contains c = false) ↔ c ∉ L := by
  constructor
  · intro h hmem
    have : L.elem c = true := List.elem_iff.mpr hmem
    rw [show L.contains c = L.elem c from rfl] at h
    rw [h] at this
    cases this
  · intro hnot
    rcases Bool.eq_false_or_eq_true (L.contains c) with h | h
    · exact absurd (List.elem_iff.mp h) hnot
    · exact h

/-- C10: once the comparison stage is reached (no document missing and at
least one referenced document), customer_target is a subset of customer_all,
the four reported lists are strictly sorted without duplicates, missing is the
sorted set difference target minus allowed, and passed holds iff missing is
empty. -/
theorem C10_comparison (standard : String) (xmls : List String) (ex : String → Bool)
    (pairsOf : String → List (String × String)) (allowed : List String)
    (hne : xmls ≠ []) (hex : ∀ p ∈ xmls, ex p = true) :
    (∀ c ∈ (runTvStandardCheckCore standard xmls ex pairsOf allowed).customer_target_countries,
      c ∈ (runTvStandardCheckCore standard xmls ex pairsOf allowed).customer_countries_all) ∧
    (runTvStandardCheckCore standard xmls ex pairsOf allowed).customer_countries_all.Pairwise
      (fun a b => sLtb a b = true) ∧
    (runTvStandardCheckCore standard xmls ex pairsOf allowed).customer_target_countries.Pairwise
      (fun a b => sLtb a b = true) ∧
    (runTvStandardCheckCore standard xmls ex pairsOf allowed).allowed_countries.Pairwise
      (fun a b => sLtb a b = true) ∧
    (runTvStandardCheckCore standard xmls ex pairsOf allowed).missing.Pairwise
      (fun a b => sLtb a b = true) ∧
    (∀ c, c ∈ (runTvStandardCheckCore standard xmls ex pairsOf allowed).missing ↔
      (c ∈ (runTvStandardCheckCore standard xmls ex pairsOf allowed).customer_target_countries ∧
        c ∉ (runTvStandardCheckCore standard xmls ex pairsOf allowed).allowed_countries)) ∧
    ((runTvStandardCheckCore standard xmls ex pairsOf allowed).passed = true ↔
      (runTvStandardCheckCore standard xmls ex pairsOf allowed).missing = []) := by
  have hnisE : xmls.isEmpty = false := by
    cases xmls with
    | nil => exact absurd rfl hne
    | cons a t => rfl
  have hok := collectPairsLoop_ok ex pairsOf xmls hex
  rw [runCore_ok standard xmls ex pairsOf allowed ((xmls.map pairsOf).flatten) hnisE hok]
  refine ⟨?_, strictSorted_sortedSet _, strictSorted_sortedSet _, strictSorted_sortedSet _,
    strictSorted_sortedSet _, ?_, ?_⟩
  · intro c hc
    rw [mem_sortedSet] at hc ⊢
    obtain ⟨pr, hpr, rfl⟩ := List.mem_map.mp hc
    exact List.mem_map_of_mem _ (List.mem_of_mem_filter hpr)
  · intro c
    rw [mem_sortedSet, List.mem_filter]
    constructor
    · rintro ⟨h1, h2⟩
      refine ⟨h1, ?_⟩
      rw [Bool.not_eq_true'] at h2
      exact (contains_eq_false_iff _ c).mp h2
    · rintro ⟨h1, h2⟩
      refine ⟨h1, ?_⟩
      rw [Bool.not_eq_true']
      exact (contains_eq_false_iff _ c).mpr h2
  · exact List.isEmpty_iff

/-- Witness for C10 at a concrete passing configuration. -/
theorem C10_witness :
    (runTvStandardCheckCore "DVB" ["b"] exTrue cexPairsFr ["FRANCE"]).passed = true := by
  obtain ⟨-, -, -, -, -, -, hpm⟩ :=
    C10_comparison "DVB" ["b"] exTrue cexPairsFr ["FRANCE"] (by decide) (by decide)
  exact hpm.mpr (by decide)

theorem foldl_count_aux {σ : Type} (g : (Nat × σ) → Xml → (Nat × σ)) (cond : Xml → Bool)
    (hg : ∀ acc b, (g acc b).1 = acc.1 + (if cond b then 1 else 0)) :
    ∀ (blocks : List Xml) (acc : Nat × σ),
      (blocks.foldl g acc).1 = acc.1 + (blocks.filter cond).length := by
  intro blocks
  induction blocks with
  | nil => intro acc; simp
  | cons b bs ih =>
    intro acc
    rw [List.foldl_cons, ih (g acc b), hg acc b, List.filter_cons]
    by_cases hc : cond b = true
    · simp [hc]
      omega
    · simp [hc]

theorem dvbsBlockStep_count (fs : String → Option (List String)) (root : String)
    (acc : Nat × List (String × String)) (b : Xml) :
    (dvbsBlockStep fs root acc b).1 = acc.1 +
      (if specMatchesClass "DVB" (sUpper (sTrim ((b.findtext "TV_SYSTEM").getD ""))) then 1 else 0) := by
  have happ : ("DVB" ++ "_" : String) = "DVB_" := rfl
  unfold dvbsBlockStep specMatchesClass
  rw [happ]
  by_cases hm : (sUpper (sTrim ((b.findtext "TV_SYSTEM").getD "")) == "DVB" ||
      sStarts (sUpper (sTrim ((b.findtext "TV_SYSTEM").getD ""))) "DVB_") = true
  · rw [if_pos hm]
    simp only [hm, Bool.not_true, Bool.false_eq_true, if_false]
    by_cases ht : sTrim ((b.findtext "TV_CONFIG").getD "") = ""
    · rw [if_pos ht]
    · rw [if_neg ht]
      by_cases hst : (fileFlagState
          (fs (resolveTvconfigsPath root (sTrim ((b.findtext "TV_CONFIG").getD "")))) KEY_DVBS).1 = true
      · rw [if_pos hst]
      · rw [if_neg hst]
  · rw [if_neg hm]
    have hm' : (!(sUpper (sTrim ((b.findtext "TV_SYSTEM").getD "")) == "DVB" ||
        sStarts (sUpper (sTrim ((b.findtext "TV_SYSTEM").getD ""))) "DVB_")) = true := by
      rw [Bool.not_eq_true] at hm
      rw [hm]
      rfl
    rw [if_pos hm']
    simp

theorem gingaBlockStep_count (fs : String → Option (List String)) (root : String)
    (acc : Nat × List (String × String)) (b : Xml) :
    (gingaBlockStep fs root acc b).1 = acc.1 +
      (if specMatchesClass "ISDB" (sUpper (sTrim ((b.findtext "TV_SYSTEM").getD ""))) then 1 else 0) := by
  have happ : ("ISDB" ++ "_" : String) = "ISDB_" := rfl
  unfold gingaBlockStep specMatchesClass
  rw [happ]
  by_cases hm : (sUpper (sTrim ((b.findtext "TV_SYSTEM").getD "")) == "ISDB" ||
      sStarts (sUpper (sTrim ((b.findtext "TV_SYSTEM").getD ""))) "ISDB_") = true
  · rw [if_pos hm]
    simp only [hm, Bool.not_true, Bool.false_eq_true, if_false]
    by_cases ht : sTrim ((b.findtext "TV_CONFIG").getD "") = ""
    · rw [if_pos ht]
    · rw [if_neg ht]
      by_cases hst : (fileFlagState
          (fs (resolveTvconfigsPath root (sTrim ((b.findtext "TV_CONFIG").getD "")))) KEY_GINGA).1 = true
      · rw [if_pos hst]
      · rw [if_neg hst]
  · rw [if_neg hm]
    have hm' : (!(sUpper (sTrim ((b.findtext "TV_SYSTEM").getD "")) == "ISDB" ||
        sStarts (sUpper (sTrim ((b.findtext "TV_SYSTEM").getD ""))) "ISDB_")) = true := by
      rw [Bool.not_eq_true] at hm
      rw [hm]
      rfl
    rw [if_pos hm']
    simp

/-- C6 counterexample: the multi-standard validator selects the tv_system
value `DVBX` for target class `DVB` although it neither equals `DVB` nor
starts with `DVB_`. -/
theorem C6_counterexample :
    (runTvStandardCheckCore "DVB" ["a"] exTrue cexPairsDvbx []).customer_target_countries =
      ["X_LAND"] ∧
    specMatchesClass "DVB" "DVBX" = false := by decide

/-- C6 amended: the dvbs and ginga checkers select exactly the blocks whose
tv_system equals the class or starts with `class_`; the multi-standard
validator instead selects by plain `startswith`, so any extension of the
class name matches. -/
theorem C6_matching :
    (∀ (fs : String → Option (List String)) (root : String) (blocks : List Xml),
      (processBlocksDvbs fs root blocks).1 =
        (blocks.filter (fun b =>
          specMatchesClass "DVB" (sUpper (sTrim ((b.findtext "TV_SYSTEM").getD ""))))).length) ∧
    (∀ (fs : String → Option (List String)) (root : String) (blocks : List Xml),
      (processBlocksGinga fs root blocks).1 =
        (blocks.filter (fun b =>
          specMatchesClass "ISDB" (sUpper (sTrim ((b.findtext "TV_SYSTEM").getD ""))))).length) ∧
    (∀ (standard : String) (xmls : List String) (ex : String → Bool)
        (pairsOf : String → List (String × String)) (allowed : List String) (c : String),
      xmls ≠ [] → (∀ p ∈ xmls, ex p = true) →
      (c ∈ (runTvStandardCheckCore standard xmls ex pairsOf allowed).customer_target_countries ↔
        ∃ s, ((c, s) ∈ (xmls.map pairsOf).flatten ∧ sStarts s standard = true))) := by
  refine ⟨?_, ?_, ?_⟩
  · intro fs root blocks
    have h := foldl_count_aux (dvbsBlockStep fs root) _ (dvbsBlockStep_count fs root) blocks (0, [])
    simpa [processBlocksDvbs] using h
  · intro fs root blocks
    have h := foldl_count_aux (gingaBlockStep fs root) _ (gingaBlockStep_count fs root) blocks (0, [])
    simpa [processBlocksGinga] using h
  · intro standard xmls ex pairsOf allowed c hne hex
    have hnisE : xmls.isEmpty = false := by
      cases xmls with
      | nil => exact absurd rfl hne
      | cons a t => rfl
    have hok := collectPairsLoop_ok ex pairsOf xmls hex
    have hfield : (runTvStandardCheckCore standard xmls ex pairsOf allowed).customer_target_countries =
        sortedSet ((((xmls.map pairsOf).flatten).filter (fun pr => sStarts pr.2 standard)).map (·.1)) := by
      rw [runCore_ok standard xmls ex pairsOf allowed ((xmls.map pairsOf).flatten) hnisE hok]
    rw [hfield, mem_sortedSet]
    constructor
    · intro hc
      obtain ⟨pr, hpr, rfl⟩ := List.mem_map.mp hc
      obtain ⟨hmem, hstd⟩ := List.mem_filter.mp hpr
      exact ⟨pr.2, by simpa using hmem, hstd⟩
    · rintro ⟨s, hmem, hstd⟩
      refine List.mem_map_of_mem (·.1) (List.mem_filter.mpr ⟨hmem, ?_⟩)
      show sStarts (c, s).2 standard = true
      exact hstd

/-- Witness for C6 amended at concrete inputs. -/
theorem C6_witness :
    "FRANCE" ∈ (runTvStandardCheckCore "DVB" ["b"] exTrue cexPairsFr []).customer_target_countries :=
  (C6_matching.2.2 "DVB" ["b"] exTrue cexPairsFr [] "FRANCE" (by decide) (by decide)).mpr
    ⟨"DVB", by decide, by decide⟩

theorem fmt_data (p r : String) :
    (fmtFailure (p, r)).data = p.data ++ (" (" ++ r ++ ")").data := by
  simp [fmtFailure, String.data_append, List.append_assoc]

/-- With the only two reasons the checkers produce — which format to
equal-length distinct suffixes — the failure format string is injective. -/
theorem fmtFailure_inj (p₁ r₁ p₂ r₂ : String)
    (h₁ : r₁ = "MISSING" ∨ r₁ = "NO_FLAG") (h₂ : r₂ = "MISSING" ∨ r₂ = "NO_FLAG")
    (he : fmtFailure (p₁, r₁) = fmtFailure (p₂, r₂)) : p₁ = p₂ ∧ r₁ = r₂ := by
  have hd := congrArg String.data he
  rw [fmt_data, fmt_data] at hd
  rcases h₁ with rfl | rfl <;> rcases h₂ with rfl | rfl
  · obtain ⟨hp, -⟩ := List.append_inj' hd (by rfl)
    exact ⟨String.toList_inj.mp hp, rfl⟩
  · obtain ⟨-, hsuf⟩ := List.append_inj' hd (by rfl)
    exact absurd hsuf (by decide)
  · obtain ⟨-, hsuf⟩ := List.append_inj' hd (by rfl)
    exact absurd hsuf (by decide)
  · obtain ⟨hp, -⟩ := List.append_inj' hd (by rfl)
    exact ⟨String.toList_inj.mp hp, rfl⟩

theorem countOcc_map_injOn {α β : Type} [DecidableEq α] [DecidableEq β] (f : α → β) :
    ∀ (l : List α) (a : α), (∀ x ∈ l, f x = f a → x = a) →
      countOcc (f a) (l.map f) = countOcc a l := by
  intro l a
  induction l with
  | nil => intro _; rfl
  | cons x xs ih =>
    intro h
    simp only [List.map_cons, countOcc]
    rw [ih (fun y hy => h y (List.mem_cons_of_mem x hy))]
    by_cases hxa : x = a
    · subst hxa; simp
    · have hne : ¬ f x = f a := fun hfe => hxa (h x (List.mem_cons_self x xs) hfe)
      simp [hxa, hne]

theorem dedupAux_map {α β : Type} [DecidableEq α] [DecidableEq β] (f : α → β) :
    ∀ (l seen : List α),
      (∀ x ∈ l, ∀ y, (y ∈ l ∨ y ∈ seen) → f x = f y → x = y) →
      dedupAux (seen.map f) (l.map f) = (dedupAux seen l).map f := by
  intro l
  induction l with
  | nil => intro seen _; simp [dedupAux]
  | cons x xs ih =>
    intro seen h
    simp only [List.map_cons, dedupAux]
    have hmemiff : (f x ∈ seen.map f) ↔ x ∈ seen := by
      constructor
      · intro hm
        obtain ⟨y, hy, hfy⟩ := List.mem_map.mp hm
        have hxy := h x (List.mem_cons_self x xs) y (Or.inr hy) hfy.symm
        rw [hxy]
        exact hy
      · intro hm
        exact List.mem_map_of_mem f hm
    by_cases hx : x ∈ seen
    · rw [if_pos (hmemiff.mpr hx), if_pos hx]
      exact ih seen (fun a ha y hy =>
        h a (List.mem_cons_of_mem x ha) y (hy.imp (List.mem_cons_of_mem x) id))
    · rw [if_neg (fun hm => hx (hmemiff.mp hm)), if_neg hx]
      have hrec := ih (x :: seen) ?_
      · simp only [List.map_cons] at hrec
        rw [List.map_cons, hrec]
      · intro a ha y hy hf
        apply h a (List.mem_cons_of_mem x ha) y ?_ hf
        rcases hy with hy | hy
        · exact Or.inl (List.mem_cons_of_mem x hy)
        · rcases List.mem_cons.mp hy with rfl | hy'
          · exact Or.inl (List.mem_cons_self y xs)
          · exact Or.inr hy'

theorem dedupKeep_map {α β : Type} [DecidableEq α] [DecidableEq β] (f : α → β)
    (l : List α) (h : ∀ x ∈ l, ∀ y ∈ l, f x = f y → x = y) :
    dedupKeep (l.map f) = (dedupKeep l).map f := by
  unfold dedupKeep
  rw [show ([] : List β) = ([] : List α).map f from rfl]
  exact dedupAux_map f l []
    (fun x hx y hy => h x hx y (by rcases hy with hy | hy; exact hy; cases hy))

/-- C8: with deduplication on, the failure summary has exactly one line per
distinct `(subject, reason)` pair, and the line of every pair carries that
occurrence count of that pair. -/
theorem C8_dedup_summary (fd : List (String × String))
    (hr : ∀ pr ∈ fd, pr.2 = "MISSING" ∨ pr.2 = "NO_FLAG") :
    (failedSummary true fd).length = (dedupKeep fd).length ∧
    ∀ pr ∈ fd,
      (fmtFailure pr ++ " x" ++ toString (countOcc pr fd)) ∈ failedSummary true fd := by
  have hinj : ∀ x ∈ fd, ∀ y ∈ fd, fmtFailure x = fmtFailure y → x = y := by
    intro x hx y hy he
    obtain ⟨p₁, r₁⟩ := x
    obtain ⟨p₂, r₂⟩ := y
    obtain ⟨hp, hrq⟩ := fmtFailure_inj p₁ r₁ p₂ r₂ (hr _ hx) (hr _ hy) he
    rw [hp, hrq]
  have hded : dedupKeep (fd.map fmtFailure) = (dedupKeep fd).map fmtFailure :=
    dedupKeep_map fmtFailure fd hinj
  have hsum : failedSummary true fd =
      (sortStr (dedupKeep (fd.map fmtFailure))).map
        (fun k => k ++ " x" ++ toString (countOcc k (fd.map fmtFailure))) := rfl
  constructor
  · rw [hsum, List.length_map, (perm_sortStr _).length_eq, hded, List.length_map]
  · intro pr hpr
    rw [hsum]
    have hcnt : countOcc (fmtFailure pr) (fd.map fmtFailure) = countOcc pr fd :=
      countOcc_map_injOn fmtFailure fd pr (fun x hx he => hinj x hx pr hpr he)
    have hmem : fmtFailure pr ∈ sortStr (dedupKeep (fd.map fmtFailure)) := by
      rw [(perm_sortStr _).mem_iff, mem_dedupKeep]
      exact List.mem_map_of_mem fmtFailure hpr
    have hx := List.mem_map_of_mem
      (fun k => k ++ " x" ++ toString (countOcc k (fd.map fmtFailure))) hmem
    simp only [] at hx
    rw [hcnt] at hx
    exact hx

/-- Witness for C8 at a concrete failure list: two identical failures and one
distinct one give two lines, the line of the duplicated pair carrying count 2. -/
theorem C8_witness :
    (failedSummary true [("a", "NO_FLAG"), ("a", "NO_FLAG"), ("b", "MISSING")]).length = 2 ∧
    "a (NO_FLAG) x2" ∈ failedSummary true [("a", "NO_FLAG"), ("a", "NO_FLAG"), ("b", "MISSING")] := by
  have h := C8_dedup_summary [("a", "NO_FLAG"), ("a", "NO_FLAG"), ("b", "MISSING")] (by decide)
  constructor
  · exact h.1.trans (by decide)
  · have h2 := h.2 ("a", "NO_FLAG") (by decide)
    rw [show (fmtFailure ("a", "NO_FLAG") ++ " x" ++
        toString (countOcc ("a", "NO_FLAG")
          ([("a", "NO_FLAG"), ("a", "NO_FLAG"), ("b", "MISSING")] : List (String × String)))) =
        "a (NO_FLAG) x2" from by decide] at h2
    exact h2
